import Mathlib

/-!
Shallow embedding of the OAuth Authorization & Token Lifecycle Manager of
`src/src/auth/OAuthProvider.js` (classes `ClientsStore` and `OAuthProvider`)
and of the `/oauth/revoke` route handler of the OAuth setup module.

Modelling conventions:
- JavaScript `Map` objects are embedded as association lists
  `List (String × α)` with `Map.get`/`Map.set`/`Map.delete` embedded as
  `lget`/`lset`/`ldel` (`lset` overwrites in place, preserving insertion
  order, like a JS `Map`).
- `Date.now()` is passed explicitly as a `Nat` (epoch milliseconds).
- `randomUUID()` results are passed explicitly as `String` parameters.
- The persisted token file is modelled as
  `tokensFile : Option (List (String × TokenData))`; `none` stands for a
  missing file (`ENOENT`). `saveTokens` overwrites it with the serialized
  in-memory map, `loadTokens` merges unexpired entries into memory.
- The `setTimeout` scheduled at code issuance (deleting the code after
  10 minutes) is modelled by `fireCodeTimers`, which runs every due timer:
  it deletes each code whose 10-minute deadline has been reached. This is
  the ideal-scheduler semantics of the event loop.
- Thrown `Error`s are embedded as `Except OAuthError` results; the error
  constructors follow the spec's taxonomy (`InvalidGrant`, `InvalidTarget`,
  `InvalidToken`, `TokenExpired`, `ValidationError`) and carry the source's
  message string. Operations that mutate state before throwing return the
  mutated state alongside the error.
-/

namespace OAuthModel

/-- Lookup in an association list, mirroring JS `Map.prototype.get`. -/
def lget {α : Type} : List (String × α) → String → Option α
  | [], _ => none
  | (k', v) :: rest, k => if k' = k then some v else lget rest k

/-- Insertion/update in an association list, mirroring JS
`Map.prototype.set`: overwrites an existing key in place, otherwise appends
at the end (JS `Map` preserves insertion order). -/
def lset {α : Type} : List (String × α) → String → α → List (String × α)
  | [], k, v => [(k, v)]
  | (k', v') :: rest, k, v =>
      if k' = k then (k, v) :: rest else (k', v') :: lset rest k v

/-- Deletion from an association list, mirroring JS `Map.prototype.delete`. -/
def ldel {α : Type} (m : List (String × α)) (k : String) : List (String × α) :=
  m.filter (fun p => p.1 ≠ k)

/-- JS truthiness of an optional string value (`undefined` and the empty
string are falsy). -/
def jsTruthyStr : Option String → Bool
  | some s => s ≠ ""
  | none => false

/-- JS `a || b` on optional strings: keeps `a` when it is truthy. -/
def jsOrStr (a b : Option String) : Option String :=
  if jsTruthyStr a then a else b

/-- JS `a || b` where `a` is an optional array (arrays are always truthy,
so a present empty list is kept). -/
def jsOrScopes : Option (List String) → List String → List String
  | some l, _ => l
  | none, d => d

/-- Token kind tag, the `type` field of a stored token (`'access'` or
`'refresh'`). -/
inductive TokenType where
  | access
  | refresh
deriving DecidableEq, Repr

/-- A stored token record, as placed in `this.tokens` by
`exchangeAuthorizationCode` / `exchangeRefreshToken`. Access tokens carry a
`refreshToken` link, refresh tokens an `accessToken` link; the absent field
of the other kind is `none` (JS `undefined`). -/
structure TokenData where
  token : String
  clientId : String
  scopes : List String
  expiresAt : Nat
  resource : Option String
  type : TokenType
  refreshToken : Option String := none
  accessToken : Option String := none
deriving DecidableEq, Repr

/-- Registered OAuth client metadata (the fields the core reads). -/
structure Client where
  client_id : String
  client_secret : Option String := none
  redirect_uris : List String := []
  grant_types : List String := []
deriving DecidableEq, Repr

/-- Authorization request parameters recorded with a code
(`codeData.params`). -/
structure CodeParams where
  scopes : Option (List String) := none
  resource : Option String := none
  codeChallenge : Option String := none
  state : Option String := none
deriving DecidableEq, Repr

/-- The record stored in `this.codes` by `authorize`. -/
structure CodeData where
  client : Client
  params : CodeParams
  createdAt : Nat
deriving DecidableEq, Repr

/-- The state of an `OAuthProvider` instance: the in-memory code and token
maps, the `tokensLoaded` lazy-load flag, the persisted token file, and the
optional `validateResource` callback given at construction. -/
structure ProviderState where
  codes : List (String × CodeData)
  tokens : List (String × TokenData)
  tokensLoaded : Bool
  tokensFile : Option (List (String × TokenData))
  validateResource : Option (Option String → Bool)

/-- Error taxonomy of the spec; each constructor carries the message string
thrown by the source. -/
inductive OAuthError where
  | invalidGrant (msg : String)
  | invalidTarget (msg : String)
  | invalidToken (msg : String)
  | tokenExpired (msg : String)
  | validationError (msg : String)
deriving DecidableEq, Repr

/-- The object returned by a successful token-endpoint call. On refresh the
source's returned object has no `refresh_token` property, embedded as
`refresh_token = none`. -/
structure TokenResponse where
  access_token : String
  token_type : String
  expires_in : Nat
  refresh_token : Option String
  scope : String
deriving DecidableEq, Repr

/-- The object returned by a successful `verifyAccessToken`. -/
structure TokenInfo where
  token : String
  clientId : String
  scopes : List String
  expiresAt : Nat
  resource : Option String
deriving DecidableEq, Repr

/-- Authorization-code lifetime: 10 minutes, in milliseconds. -/
def codeTtlMs : Nat := 10 * 60 * 1000

/-- Access-token lifetime: `expiresIn = 3600` seconds, in milliseconds. -/
def accessTtlMs : Nat := 3600 * 1000

/-- Refresh-token lifetime: 30 days, in milliseconds. -/
def refreshTtlMs : Nat := 30 * 24 * 3600 * 1000

/-- `OAuthProvider.loadTokens`: a no-op once `tokensLoaded` is set;
otherwise merges every entry of the persisted file whose `expiresAt` is
still in the future (`tokenData.expiresAt > Date.now()`) into the in-memory
map, then sets `tokensLoaded`. A missing file (`ENOENT`) loads nothing. -/
def loadTokens (now : Nat) (st : ProviderState) : ProviderState :=
  if st.tokensLoaded then st
  else
    let tokens :=
      match st.tokensFile with
      | none => st.tokens
      | some entries =>
          entries.foldl
            (fun m e => if now < e.2.expiresAt then lset m e.1 e.2 else m)
            st.tokens
    { st with tokens := tokens, tokensLoaded := true }

/-- `OAuthProvider.saveTokens`: overwrites the token file with the
serialization of the full in-memory token map. -/
def saveTokens (st : ProviderState) : ProviderState :=
  { st with tokensFile := some st.tokens }

/-- `OAuthProvider.authorize`, state effect only: records the freshly
generated `code` with the owning client, the request parameters and
`createdAt = Date.now()`. The scheduled `setTimeout` deletion is modelled
by `fireCodeTimers`; the HTTP redirect is outside the state model. -/
def authorize (client : Client) (params : CodeParams) (code : String)
    (now : Nat) (st : ProviderState) : ProviderState :=
  let codeData : CodeData := { client := client, params := params, createdAt := now }
  { st with codes := lset st.codes code codeData }

/-- Runs every code-deletion timer that is due at time `now`: the
`setTimeout` scheduled by `authorize` deletes the code `codeTtlMs`
milliseconds after its creation, so a code stays only while
`now < createdAt + codeTtlMs`. -/
def fireCodeTimers (now : Nat) (st : ProviderState) : ProviderState :=
  { st with codes :=
      st.codes.filter (fun e => decide (now < e.2.createdAt + codeTtlMs)) }

/-- The guard `this.validateResource && !this.validateResource(resource)`
negated: `true` when no validator is configured or the validator accepts. -/
def resourceOk (st : ProviderState) (resource : Option String) : Bool :=
  match st.validateResource with
  | some v => v resource
  | none => true

/-- `OAuthProvider.exchangeAuthorizationCode`. Fails for an unknown code,
a client-id mismatch, or a rejected resource (state unchanged in each
case); on success deletes the code, mints the linked access/refresh pair
with lifetimes `accessTtlMs` / `refreshTtlMs`, stores both, persists, and
returns the token response. Note: the source does not call `loadTokens`
here. The fresh `randomUUID` values are the `newAccessToken` /
`newRefreshToken` parameters. -/
def exchangeAuthorizationCode (client : Client) (authorizationCode : String)
    (now : Nat) (newAccessToken newRefreshToken : String)
    (st : ProviderState) : Except OAuthError TokenResponse × ProviderState :=
  match lget st.codes authorizationCode with
  | none => (.error (.invalidGrant "Invalid authorization code"), st)
  | some codeData =>
    if codeData.client.client_id ≠ client.client_id then
      (.error (.invalidGrant "Authorization code was not issued to this client"), st)
    else if resourceOk st codeData.params.resource then
      let codes := ldel st.codes authorizationCode
      let accessData : TokenData :=
        { token := newAccessToken
          clientId := client.client_id
          scopes := (codeData.params.scopes).getD []
          expiresAt := now + accessTtlMs
          resource := codeData.params.resource
          type := .access
          refreshToken := some newRefreshToken }
      let refreshData : TokenData :=
        { token := newRefreshToken
          clientId := client.client_id
          scopes := (codeData.params.scopes).getD []
          expiresAt := now + refreshTtlMs
          resource := codeData.params.resource
          type := .refresh
          accessToken := some newAccessToken }
      let tokens :=
        lset (lset st.tokens newAccessToken accessData) newRefreshToken refreshData
      let st' := saveTokens { st with codes := codes, tokens := tokens }
      (.ok { access_token := newAccessToken
             token_type := "bearer"
             expires_in := 3600
             refresh_token := some newRefreshToken
             scope := String.intercalate " " ((codeData.params.scopes).getD []) },
       st')
    else
      (.error (.invalidTarget
        ("Invalid resource: " ++ (codeData.params.resource).getD "undefined")), st)

/-- `OAuthProvider.exchangeRefreshToken`. Loads tokens lazily, rejects an
unknown/non-refresh token, a client mismatch, or an expired token (the
expired token is deleted in memory before the throw, without persisting).
On success deletes the old linked access token, mints a new access token
linked to the same refresh token, updates the refresh record's
`accessToken` link in place, persists, and returns a response without a
`refresh_token` property. -/
def exchangeRefreshToken (client : Client) (refreshToken : String)
    (scopes : Option (List String)) (resource : Option String)
    (now : Nat) (newAccessToken : String) (st0 : ProviderState) :
    Except OAuthError TokenResponse × ProviderState :=
  let st := loadTokens now st0
  match lget st.tokens refreshToken with
  | none => (.error (.invalidGrant "Invalid refresh token"), st)
  | some tokenData =>
    if tokenData.type ≠ .refresh then
      (.error (.invalidGrant "Invalid refresh token"), st)
    else if tokenData.clientId ≠ client.client_id then
      (.error (.invalidGrant "Refresh token was not issued to this client"), st)
    else if tokenData.expiresAt < now then
      (.error (.invalidGrant "Refresh token expired"),
       { st with tokens := ldel st.tokens refreshToken })
    else
      let tokens1 :=
        if jsTruthyStr tokenData.accessToken then
          ldel st.tokens ((tokenData.accessToken).getD "")
        else st.tokens
      let newScopes := jsOrScopes scopes tokenData.scopes
      let newTokenData : TokenData :=
        { token := newAccessToken
          clientId := client.client_id
          scopes := newScopes
          expiresAt := now + accessTtlMs
          resource := jsOrStr resource tokenData.resource
          type := .access
          refreshToken := some refreshToken }
      let tokens2 := lset tokens1 newAccessToken newTokenData
      let tokens3 :=
        if newAccessToken = refreshToken then tokens2
        else lset tokens2 refreshToken { tokenData with accessToken := some newAccessToken }
      let st' := saveTokens { st with tokens := tokens3 }
      (.ok { access_token := newAccessToken
             token_type := "bearer"
             expires_in := 3600
             refresh_token := none
             scope := String.intercalate " " newScopes },
       st')

/-- `OAuthProvider.verifyAccessToken`. Loads tokens lazily, rejects an
absent token or a non-access token with `InvalidToken`, deletes and
persists an expired token before failing with `TokenExpired`, and
otherwise returns the token info with `expiresAt` in epoch seconds
(`Math.floor(expiresAt / 1000)`). -/
def verifyAccessToken (token : String) (now : Nat) (st0 : ProviderState) :
    Except OAuthError TokenInfo × ProviderState :=
  let st := loadTokens now st0
  match lget st.tokens token with
  | none => (.error (.invalidToken "Invalid token"), st)
  | some tokenData =>
    if tokenData.type ≠ .access then
      (.error (.invalidToken "Not an access token"), st)
    else if tokenData.expiresAt < now then
      (.error (.tokenExpired "Token expired"),
       saveTokens { st with tokens := ldel st.tokens token })
    else
      (.ok { token := token
             clientId := tokenData.clientId
             scopes := tokenData.scopes
             expiresAt := tokenData.expiresAt / 1000
             resource := tokenData.resource },
       st)

/-- `OAuthProvider.revokeToken`. Loads tokens lazily; an absent token is a
silent no-op. Otherwise deletes the linked counterpart (guarded by the
token's type and JS truthiness of the link), deletes the token itself, and
persists. Never fails. -/
def revokeToken (token : String) (now : Nat) (st0 : ProviderState) :
    ProviderState :=
  let st := loadTokens now st0
  match lget st.tokens token with
  | none => st
  | some tokenData =>
    let t1 :=
      if tokenData.type = .access ∧ jsTruthyStr tokenData.refreshToken then
        ldel st.tokens ((tokenData.refreshToken).getD "")
      else st.tokens
    let t2 :=
      if tokenData.type = .refresh ∧ jsTruthyStr tokenData.accessToken then
        ldel t1 ((tokenData.accessToken).getD "")
      else t1
    saveTokens { st with tokens := ldel t2 token }

/-- Status and body of an HTTP route response. -/
structure RouteResponse where
  status : Nat
  body : String
deriving DecidableEq, Repr

/-- The `POST /oauth/revoke` Express handler of the OAuth setup module:
reads `token` from the body, calls `provider.revokeToken(token)` only when
`token` is truthy, and answers `200` with an empty body; if the revocation
throws, the `catch` block logs and still answers `200` with an empty body
(RFC 7009). `runRevoke` stands for the awaited `revokeToken` call: it
returns either `(none, st')` on success or `(some err, stAtThrow)` when an
internal error is thrown. -/
def oauthRevokeRoute (token : Option String)
    (runRevoke : String → Option String × ProviderState)
    (st : ProviderState) : RouteResponse × ProviderState :=
  if jsTruthyStr token then
    match runRevoke (token.getD "") with
    | (some _, stAtThrow) => ({ status := 200, body := "" }, stAtThrow)
    | (none, st') => ({ status := 200, body := "" }, st')
  else
    ({ status := 200, body := "" }, st)

/-- State of a `ClientsStore` instance: the in-memory client map, the
`loaded` lazy-load flag, and the persisted client file. -/
structure ClientsStoreState where
  clients : List (String × Client)
  loaded : Bool
  storeFile : Option (List (String × Client))
deriving DecidableEq, Repr

/-- `ClientsStore.load`: a no-op once `loaded` is set; otherwise merges
every persisted entry into the in-memory map and sets `loaded`. -/
def clientsLoad (st : ClientsStoreState) : ClientsStoreState :=
  if st.loaded then st
  else
    let clients :=
      match st.storeFile with
      | none => st.clients
      | some entries => entries.foldl (fun m e => lset m e.1 e.2) st.clients
    { st with clients := clients, loaded := true }

/-- `ClientsStore.registerClient`: loads lazily, stores the metadata under
its `client_id`, persists the full client map, returns the metadata. No
validation is performed at this layer. -/
def registerClient (metadata : Client) (st0 : ClientsStoreState) :
    Client × ClientsStoreState :=
  let st := clientsLoad st0
  let clients := lset st.clients metadata.client_id metadata
  (metadata, { st with clients := clients, storeFile := some clients })

/-- Modelled from the spec: the `/register` endpoint's metadata validation
is implemented by the MCP SDK's auth router, which is not part of this
repository's sources; only the storage layer (`ClientsStore.registerClient`)
is. Following the spec's words, registration "fails with `ValidationError`
if required fields (redirect_uris non-empty, at least one grant type) are
missing", and only a validated request reaches `registerClient`. -/
def registerEndpoint (metadata : Client) (st : ClientsStoreState) :
    Except OAuthError Client × ClientsStoreState :=
  if metadata.redirect_uris = [] then
    (.error (.validationError "redirect_uris must be a non-empty array"), st)
  else if metadata.grant_types = [] then
    (.error (.validationError "at least one grant type is required"), st)
  else
    let (c, st') := registerClient metadata st
    (.ok c, st')

/-! Basic lemmas about the association-list map operations. -/

/-- The list of keys of an association list. -/
def lkeys {α : Type} (m : List (String × α)) : List String :=
  m.map Prod.fst

theorem lget_lset_self {α : Type} (m : List (String × α)) (k : String) (v : α) :
    lget (lset m k v) k = some v := by
  induction m with
  | nil => simp [lget, lset]
  | cons hd tl ih =>
      obtain ⟨k1, v1⟩ := hd
      by_cases h : k1 = k
      · subst h; simp [lset, lget]
      · simp [lset, lget, h, ih]

theorem lget_lset_ne {α : Type} (m : List (String × α)) (k k' : String) (v : α)
    (h : k' ≠ k) : lget (lset m k v) k' = lget m k' := by
  have hkk : ¬ (k = k') := fun hc => h hc.symm
  induction m with
  | nil => simp [lget, lset, hkk]
  | cons hd tl ih =>
      obtain ⟨k1, v1⟩ := hd
      by_cases hk : k1 = k
      · subst hk; simp [lset, lget, hkk]
      · by_cases hk' : k1 = k'
        · simp [lset, lget, hk, hk', h]
        · simp [lset, lget, hk, hk', ih]

theorem lget_ldel_self {α : Type} (m : List (String × α)) (k : String) :
    lget (ldel m k) k = none := by
  induction m with
  | nil => simp [lget, ldel]
  | cons hd tl ih =>
      obtain ⟨k1, v1⟩ := hd
      by_cases h : k1 = k
      · simpa [ldel, List.filter_cons, h] using ih
      · simpa [ldel, List.filter_cons, h, lget] using ih

theorem lget_ldel_ne {α : Type} (m : List (String × α)) (k k' : String)
    (h : k' ≠ k) : lget (ldel m k) k' = lget m k' := by
  induction m with
  | nil => simp [lget, ldel]
  | cons hd tl ih =>
      obtain ⟨k1, v1⟩ := hd
      by_cases hk : k1 = k
      · subst hk
        have hne : ¬ (k1 = k') := fun hc => h hc.symm
        simpa [ldel, List.filter_cons, lget, hne] using ih
      · by_cases hk' : k1 = k'
        · simp [ldel, List.filter_cons, hk, lget, hk', h]
        · simpa [ldel, List.filter_cons, hk, lget, hk'] using ih

theorem lget_none_filter {α : Type} (m : List (String × α)) (k : String)
    (p : String × α → Bool) (h : lget m k = none) :
    lget (m.filter p) k = none := by
  induction m with
  | nil => simp [lget]
  | cons hd tl ih =>
      obtain ⟨k1, v1⟩ := hd
      by_cases hk : k1 = k
      · simp [lget, hk] at h
      · simp only [lget, if_neg hk] at h
        by_cases hp : p (k1, v1)
        · simp [List.filter_cons, hp, lget, hk, ih h]
        · simp [List.filter_cons, hp, ih h]

theorem mem_lkeys_of_lget_some {α : Type} (m : List (String × α))
    (k : String) (v : α) (h : lget m k = some v) : k ∈ lkeys m := by
  induction m with
  | nil => simp [lget] at h
  | cons hd tl ih =>
      obtain ⟨k1, v1⟩ := hd
      by_cases hk : k1 = k
      · simp [lkeys, hk]
      · simp only [lget, if_neg hk] at h
        simpa [lkeys] using Or.inr (by simpa [lkeys] using ih h)

theorem lget_filter_keep {α : Type} (m : List (String × α)) (k : String)
    (v : α) (p : α → Bool) (h : lget m k = some v) (hp : p v = true) :
    lget (m.filter (fun e => p e.2)) k = some v := by
  induction m with
  | nil => simp [lget] at h
  | cons hd tl ih =>
      obtain ⟨k1, v1⟩ := hd
      by_cases hk : k1 = k
      · simp only [lget, if_pos hk] at h
        cases h
        simp [List.filter_cons, hp, lget, hk]
      · simp only [lget, if_neg hk] at h
        by_cases hph : p v1
        · simp [List.filter_cons, hph, lget, hk, ih h]
        · simp [List.filter_cons, hph, ih h]

theorem lget_filter_drop {α : Type} (m : List (String × α)) (k : String)
    (v : α) (p : α → Bool) (hnd : (lkeys m).Nodup)
    (h : lget m k = some v) (hp : p v = false) :
    lget (m.filter (fun e => p e.2)) k = none := by
  induction m with
  | nil => simp [lget] at h
  | cons hd tl ih =>
      obtain ⟨k1, v1⟩ := hd
      simp only [lkeys, List.map_cons, List.nodup_cons] at hnd
      by_cases hk : k1 = k
      · simp only [lget, if_pos hk] at h
        cases h
        have htl : lget tl k = none := by
          cases hg : lget tl k with
          | none => rfl
          | some w =>
              exact absurd (hk ▸ mem_lkeys_of_lget_some tl k w hg) hnd.1
        simp [List.filter_cons, hp, lget_none_filter tl k _ htl]
      · simp only [lget, if_neg hk] at h
        by_cases hph : p v1
        · simp [List.filter_cons, hph, lget, hk, ih hnd.2 h]
        · simp [List.filter_cons, hph, ih hnd.2 h]

theorem lget_eq_none_of_not_mem {α : Type} (m : List (String × α))
    (k : String) (h : k ∉ lkeys m) : lget m k = none := by
  induction m with
  | nil => simp [lget]
  | cons hd tl ih =>
      obtain ⟨k1, v1⟩ := hd
      simp only [lkeys, List.map_cons, List.mem_cons, not_or] at h
      have hk : ¬ (k1 = k) := fun hc => h.1 hc.symm
      simp only [lget, if_neg hk]
      exact ih h.2

theorem lkeys_lset {α : Type} (m : List (String × α)) (k : String) (v : α) :
    lkeys (lset m k v) =
      if (lget m k).isSome then lkeys m else lkeys m ++ [k] := by
  simp only [lkeys]
  induction m with
  | nil => simp [lset, lget]
  | cons hd tl ih =>
      obtain ⟨k1, v1⟩ := hd
      by_cases hk : k1 = k
      · subst hk; simp [lset, lget]
      · simp only [lset, if_neg hk, List.map_cons, lget, ih]
        by_cases hs : (lget tl k).isSome
        · simp [hs]
        · simp [hs]

theorem lget_isSome_of_mem_lkeys {α : Type} (m : List (String × α))
    (k : String) (h : k ∈ lkeys m) : (lget m k).isSome := by
  induction m with
  | nil => simp [lkeys] at h
  | cons hd tl ih =>
      obtain ⟨k1, v1⟩ := hd
      by_cases hk : k1 = k
      · simp [lget, hk]
      · simp only [lkeys, List.map_cons, List.mem_cons] at h
        rcases h with h | h
        · exact absurd h.symm hk
        · simp only [lget, if_neg hk]
          exact ih h

theorem nodup_lkeys_lset {α : Type} (m : List (String × α)) (k : String)
    (v : α) (hnd : (lkeys m).Nodup) : (lkeys (lset m k v)).Nodup := by
  rw [lkeys_lset]
  by_cases hs : (lget m k).isSome
  · simpa [hs] using hnd
  · have hnm : k ∉ lkeys m := fun hc => hs (lget_isSome_of_mem_lkeys m k hc)
    have hif : (if (lget m k).isSome then lkeys m else lkeys m ++ [k]) =
        lkeys m ++ [k] := by simp [hs]
    rw [hif, List.nodup_append]
    refine ⟨hnd, List.nodup_singleton k, ?_⟩
    intro a ha hb
    simp only [List.mem_singleton] at hb
    exact hnm (hb ▸ ha)

/-! Characterization lemmas for `exchangeAuthorizationCode`. -/

/-- The access-token record minted by a successful code exchange. -/
def mintedAccess (client : Client) (cd : CodeData) (now : Nat)
    (a r : String) : TokenData :=
  { token := a
    clientId := client.client_id
    scopes := (cd.params.scopes).getD []
    expiresAt := now + accessTtlMs
    resource := cd.params.resource
    type := .access
    refreshToken := some r }

/-- The refresh-token record minted by a successful code exchange. -/
def mintedRefresh (client : Client) (cd : CodeData) (now : Nat)
    (a r : String) : TokenData :=
  { token := r
    clientId := client.client_id
    scopes := (cd.params.scopes).getD []
    expiresAt := now + refreshTtlMs
    resource := cd.params.resource
    type := .refresh
    accessToken := some a }

theorem exchange_code_none (client : Client) (code : String) (now : Nat)
    (a r : String) (st : ProviderState) (h : lget st.codes code = none) :
    exchangeAuthorizationCode client code now a r st =
      (.error (.invalidGrant "Invalid authorization code"), st) := by
  simp [exchangeAuthorizationCode, h]

theorem exchange_code_client_mismatch (client : Client) (code : String)
    (now : Nat) (a r : String) (st : ProviderState) (cd : CodeData)
    (h : lget st.codes code = some cd)
    (hne : cd.client.client_id ≠ client.client_id) :
    exchangeAuthorizationCode client code now a r st =
      (.error (.invalidGrant "Authorization code was not issued to this client"), st) := by
  simp [exchangeAuthorizationCode, h, hne]

theorem exchange_code_bad_resource (client : Client) (code : String)
    (now : Nat) (a r : String) (st : ProviderState) (cd : CodeData)
    (h : lget st.codes code = some cd)
    (hcl : cd.client.client_id = client.client_id)
    (hres : resourceOk st cd.params.resource = false) :
    exchangeAuthorizationCode client code now a r st =
      (.error (.invalidTarget
        ("Invalid resource: " ++ (cd.params.resource).getD "undefined")), st) := by
  simp [exchangeAuthorizationCode, h, hcl, hres]

theorem exchange_code_success (client : Client) (code : String) (now : Nat)
    (a r : String) (st : ProviderState) (cd : CodeData)
    (h : lget st.codes code = some cd)
    (hcl : cd.client.client_id = client.client_id)
    (hres : resourceOk st cd.params.resource = true) :
    exchangeAuthorizationCode client code now a r st =
      (.ok { access_token := a
             token_type := "bearer"
             expires_in := 3600
             refresh_token := some r
             scope := String.intercalate " " ((cd.params.scopes).getD []) },
       saveTokens { st with
         codes := ldel st.codes code
         tokens := lset (lset st.tokens a (mintedAccess client cd now a r)) r
           (mintedRefresh client cd now a r) }) := by
  simp [exchangeAuthorizationCode, h, hcl, hres, mintedAccess, mintedRefresh]

theorem exchange_ok_codes (client : Client) (code : String) (now : Nat)
    (a r : String) (st : ProviderState) (resp : TokenResponse)
    (st' : ProviderState)
    (h : exchangeAuthorizationCode client code now a r st = (.ok resp, st')) :
    st'.codes = ldel st.codes code := by
  unfold exchangeAuthorizationCode at h
  cases hc : lget st.codes code with
  | none => rw [hc] at h; simp at h
  | some cd =>
      rw [hc] at h
      simp only [] at h
      by_cases hcl : cd.client.client_id ≠ client.client_id
      · rw [if_pos hcl] at h; simp at h
      · rw [if_neg hcl] at h
        by_cases hres : resourceOk st cd.params.resource = true
        · rw [if_pos hres] at h
          simp only [Prod.mk.injEq] at h
          rw [← h.2]
          rfl
        · rw [if_neg hres] at h; simp at h

/-! Helper lemmas about lazy loading. -/

theorem loadTokens_of_loaded (now : Nat) (st : ProviderState)
    (h : st.tokensLoaded = true) : loadTokens now st = st := by
  simp [loadTokens, h]

theorem loadTokens_tokensLoaded (now : Nat) (st : ProviderState) :
    (loadTokens now st).tokensLoaded = true := by
  by_cases h : st.tokensLoaded
  · simp [loadTokens, h]
  · simp [loadTokens, h]

/-! Characterization lemmas for `exchangeRefreshToken`, `verifyAccessToken`
and `revokeToken`. -/

/-- The access-token record minted by a successful refresh. -/
def rotatedAccess (client : Client) (refreshToken : String)
    (scopes : Option (List String)) (resource : Option String)
    (now : Nat) (newA : String) (td : TokenData) : TokenData :=
  { token := newA
    clientId := client.client_id
    scopes := jsOrScopes scopes td.scopes
    expiresAt := now + accessTtlMs
    resource := jsOrStr resource td.resource
    type := .access
    refreshToken := some refreshToken }

theorem refresh_absent (client : Client) (refreshToken : String)
    (scopes : Option (List String)) (resource : Option String)
    (now : Nat) (newA : String) (st : ProviderState)
    (hld : st.tokensLoaded = true)
    (h : lget st.tokens refreshToken = none) :
    (exchangeRefreshToken client refreshToken scopes resource now newA st).1 =
      .error (.invalidGrant "Invalid refresh token") := by
  simp [exchangeRefreshToken, loadTokens_of_loaded now st hld, h]

theorem refresh_success_eq (client : Client) (refreshToken : String)
    (scopes : Option (List String)) (resource : Option String)
    (now : Nat) (newA : String) (st : ProviderState) (td : TokenData)
    (hld : st.tokensLoaded = true)
    (h : lget st.tokens refreshToken = some td)
    (hty : td.type = .refresh)
    (hcl : td.clientId = client.client_id)
    (hexp : ¬ td.expiresAt < now)
    (hne : newA ≠ refreshToken) :
    exchangeRefreshToken client refreshToken scopes resource now newA st =
      (.ok { access_token := newA
             token_type := "bearer"
             expires_in := 3600
             refresh_token := none
             scope := String.intercalate " " (jsOrScopes scopes td.scopes) },
       saveTokens { st with tokens :=
         (lset
           (lset
             (if jsTruthyStr td.accessToken then
               ldel st.tokens ((td.accessToken).getD "")
             else st.tokens)
             newA (rotatedAccess client refreshToken scopes resource now newA td))
           refreshToken { td with accessToken := some newA }) }) := by
  simp [exchangeRefreshToken, loadTokens_of_loaded now st hld, h, hty, hcl,
    hexp, hne, rotatedAccess]

theorem verify_absent (token : String) (now : Nat) (st : ProviderState)
    (hld : st.tokensLoaded = true) (h : lget st.tokens token = none) :
    (verifyAccessToken token now st).1 = .error (.invalidToken "Invalid token") := by
  simp [verifyAccessToken, loadTokens_of_loaded now st hld, h]

theorem revoke_result_absent (token : String) (now : Nat)
    (st : ProviderState) :
    (revokeToken token now st).tokensLoaded = true ∧
    lget (revokeToken token now st).tokens token = none := by
  unfold revokeToken
  cases hg : lget (loadTokens now st).tokens token with
  | none => simp [hg, loadTokens_tokensLoaded]
  | some td => simp [hg, saveTokens, lget_ldel_self, loadTokens_tokensLoaded]

/-! Concrete fixtures used by the witness theorems. -/

def clientA : Client := { client_id := "client-A" }

def clientB : Client := { client_id := "client-B" }

def cdA : CodeData := { client := clientA, params := {}, createdAt := 0 }

def cdRes : CodeData :=
  { client := clientA, params := { resource := some "https://srv" }, createdAt := 0 }

def st0 : ProviderState :=
  { codes := [("code-1", cdA)], tokens := [], tokensLoaded := true,
    tokensFile := none, validateResource := none }

def stVal : ProviderState :=
  { codes := [("code-1", cdA), ("code-2", cdRes)], tokens := [],
    tokensLoaded := true, tokensFile := none,
    validateResource := some (fun r => r == some "https://srv") }

def resp0 : TokenResponse :=
  { access_token := "at1", token_type := "bearer", expires_in := 3600,
    refresh_token := some "rt1", scope := "" }

def st0x : ProviderState :=
  (exchangeAuthorizationCode clientA "code-1" 5 "at1" "rt1" st0).2

/-- Claim C1: a successful `exchangeAuthorizationCode` removes the code from
the code store, and any subsequent exchange presenting the same code fails
with `InvalidGrant`, as does exchanging a code that was never issued. -/
theorem c1_single_use_code :
    (∀ (st : ProviderState) (client : Client) (code : String) (now : Nat)
       (a r : String) (resp : TokenResponse) (st' : ProviderState),
       exchangeAuthorizationCode client code now a r st = (.ok resp, st') →
       lget st'.codes code = none ∧
       ∀ (client2 : Client) (now2 : Nat) (a2 r2 : String),
         (exchangeAuthorizationCode client2 code now2 a2 r2 st').1 =
           .error (.invalidGrant "Invalid authorization code")) ∧
    (∀ (st : ProviderState) (client : Client) (code : String) (now : Nat)
       (a r : String),
       lget st.codes code = none →
       (exchangeAuthorizationCode client code now a r st).1 =
         .error (.invalidGrant "Invalid authorization code")) := by
  constructor
  · intro st client code now a r resp st' h
    have hc : lget st'.codes code = none := by
      rw [exchange_ok_codes client code now a r st resp st' h, lget_ldel_self]
    refine ⟨hc, ?_⟩
    intro client2 now2 a2 r2
    rw [exchange_code_none client2 code now2 a2 r2 st' hc]
  · intro st client code now a r h
    rw [exchange_code_none client code now a r st h]

/-- Witness for C1: a concrete exchange of `"code-1"` succeeds once, after
which the code is gone and a second exchange fails; a never-issued code also
fails. -/
theorem c1_single_use_code_witness :
    exchangeAuthorizationCode clientA "code-1" 5 "at1" "rt1" st0 = (.ok resp0, st0x) ∧
    lget st0x.codes "code-1" = none ∧
    (exchangeAuthorizationCode clientA "code-1" 6 "at2" "rt2" st0x).1 =
      .error (.invalidGrant "Invalid authorization code") ∧
    lget st0.codes "missing" = none ∧
    (exchangeAuthorizationCode clientA "missing" 5 "x" "y" st0).1 =
      .error (.invalidGrant "Invalid authorization code") := by
  have hx : exchangeAuthorizationCode clientA "code-1" 5 "at1" "rt1" st0 =
      (.ok resp0, st0x) := rfl
  have h1 := c1_single_use_code.1 st0 clientA "code-1" 5 "at1" "rt1" resp0 st0x hx
  exact ⟨hx, h1.1, h1.2 clientA 6 "at2" "rt2", rfl,
    c1_single_use_code.2 st0 clientA "missing" 5 "x" "y" rfl⟩

/-- Claim C10: when `exchangeAuthorizationCode` fails after the code has been
found — client-id mismatch or resource rejection — the provider state (in
particular the code store) is left unchanged, and a later exchange of the
same code satisfying all checks can still succeed. -/
theorem c10_failed_exchange_leaves_code :
    ∀ (st : ProviderState) (code : String) (cd : CodeData),
      lget st.codes code = some cd →
      (∀ (client : Client) (now : Nat) (a r : String),
        cd.client.client_id ≠ client.client_id →
        exchangeAuthorizationCode client code now a r st =
          (.error (.invalidGrant "Authorization code was not issued to this client"), st)) ∧
      (∀ (client : Client) (now : Nat) (a r : String),
        cd.client.client_id = client.client_id →
        resourceOk st cd.params.resource = false →
        exchangeAuthorizationCode client code now a r st =
          (.error (.invalidTarget
            ("Invalid resource: " ++ (cd.params.resource).getD "undefined")), st)) ∧
      (∀ (client : Client) (now : Nat) (a r : String),
        cd.client.client_id = client.client_id →
        resourceOk st cd.params.resource = true →
        ∃ resp st', exchangeAuthorizationCode client code now a r st = (.ok resp, st')) := by
  intro st code cd h
  refine ⟨?_, ?_, ?_⟩
  · intro client now a r hne
    exact exchange_code_client_mismatch client code now a r st cd h hne
  · intro client now a r hcl hres
    exact exchange_code_bad_resource client code now a r st cd h hcl hres
  · intro client now a r hcl hres
    exact ⟨_, _, exchange_code_success client code now a r st cd h hcl hres⟩

/-- Witness for C10: with a strict resource validator configured, a
wrong-client exchange and a resource-rejected exchange both leave the state
untouched, and the surviving code is then exchangeable. -/
theorem c10_failed_exchange_leaves_code_witness :
    (lget stVal.codes "code-1" = some cdA ∧
     cdA.client.client_id ≠ clientB.client_id ∧
     exchangeAuthorizationCode clientB "code-1" 7 "x" "y" stVal =
       (.error (.invalidGrant "Authorization code was not issued to this client"), stVal)) ∧
    (cdA.client.client_id = clientA.client_id ∧
     resourceOk stVal cdA.params.resource = false ∧
     exchangeAuthorizationCode clientA "code-1" 7 "x" "y" stVal =
       (.error (.invalidTarget "Invalid resource: undefined"), stVal)) ∧
    (lget stVal.codes "code-2" = some cdRes ∧
     resourceOk stVal cdRes.params.resource = true ∧
     ∃ resp st', exchangeAuthorizationCode clientA "code-2" 7 "x" "y" stVal =
       (.ok resp, st')) := by
  have h1 := c10_failed_exchange_leaves_code stVal "code-1" cdA rfl
  have h2 := c10_failed_exchange_leaves_code stVal "code-2" cdRes rfl
  refine ⟨⟨rfl, by decide, h1.1 clientB 7 "x" "y" (by decide)⟩,
          ⟨rfl, rfl, h1.2.1 clientA 7 "x" "y" rfl rfl⟩,
          ⟨rfl, rfl, h2.2.2 clientA 7 "x" "y" rfl rfl⟩⟩

/-- Claim C6: a successful code exchange at time `now` mints an access token
expiring at `now + 3600` seconds and a refresh token expiring at `now + 30`
days, links the two to each other, stores both, persists the store, and
returns `{access_token, token_type := "bearer", expires_in := 3600,
refresh_token, scope}`. -/
theorem c6_exchange_mints_linked_pair :
    ∀ (st : ProviderState) (client : Client) (code : String) (cd : CodeData)
      (now : Nat) (a r : String),
      lget st.codes code = some cd →
      cd.client.client_id = client.client_id →
      resourceOk st cd.params.resource = true →
      a ≠ r →
      ∃ st',
        exchangeAuthorizationCode client code now a r st =
          (.ok { access_token := a, token_type := "bearer", expires_in := 3600,
                 refresh_token := some r,
                 scope := String.intercalate " " ((cd.params.scopes).getD []) }, st') ∧
        lget st'.tokens a = some (mintedAccess client cd now a r) ∧
        lget st'.tokens r = some (mintedRefresh client cd now a r) ∧
        (mintedAccess client cd now a r).expiresAt = now + 3600 * 1000 ∧
        (mintedAccess client cd now a r).type = .access ∧
        (mintedAccess client cd now a r).refreshToken = some r ∧
        (mintedRefresh client cd now a r).expiresAt = now + 30 * 24 * 3600 * 1000 ∧
        (mintedRefresh client cd now a r).type = .refresh ∧
        (mintedRefresh client cd now a r).accessToken = some a ∧
        st'.tokensFile = some st'.tokens := by
  intro st client code cd now a r h hcl hres hne
  refine ⟨_, exchange_code_success client code now a r st cd h hcl hres,
    ?_, ?_, rfl, rfl, rfl, rfl, rfl, rfl, rfl⟩
  · show lget (lset (lset st.tokens a (mintedAccess client cd now a r)) r
        (mintedRefresh client cd now a r)) a = some (mintedAccess client cd now a r)
    rw [lget_lset_ne _ r a _ hne, lget_lset_self]
  · exact lget_lset_self _ _ _

/-- Witness for C6: the concrete exchange of `"code-1"` from `st0` mints the
expected linked pair. -/
theorem c6_exchange_mints_linked_pair_witness :
    lget st0.codes "code-1" = some cdA ∧
    cdA.client.client_id = clientA.client_id ∧
    resourceOk st0 cdA.params.resource = true ∧
    ("at1" : String) ≠ "rt1" ∧
    ∃ st',
      exchangeAuthorizationCode clientA "code-1" 5 "at1" "rt1" st0 =
        (.ok { access_token := "at1", token_type := "bearer", expires_in := 3600,
               refresh_token := some "rt1",
               scope := String.intercalate " " ((cdA.params.scopes).getD []) }, st') ∧
      lget st'.tokens "at1" = some (mintedAccess clientA cdA 5 "at1" "rt1") ∧
      lget st'.tokens "rt1" = some (mintedRefresh clientA cdA 5 "at1" "rt1") ∧
      (mintedAccess clientA cdA 5 "at1" "rt1").expiresAt = 5 + 3600 * 1000 ∧
      (mintedAccess clientA cdA 5 "at1" "rt1").type = .access ∧
      (mintedAccess clientA cdA 5 "at1" "rt1").refreshToken = some "rt1" ∧
      (mintedRefresh clientA cdA 5 "at1" "rt1").expiresAt = 5 + 30 * 24 * 3600 * 1000 ∧
      (mintedRefresh clientA cdA 5 "at1" "rt1").type = .refresh ∧
      (mintedRefresh clientA cdA 5 "at1" "rt1").accessToken = some "at1" ∧
      st'.tokensFile = some st'.tokens :=
  ⟨rfl, rfl, rfl, by decide,
    c6_exchange_mints_linked_pair st0 clientA "code-1" cdA 5 "at1" "rt1"
      rfl rfl rfl (by decide)⟩

def tdA : TokenData :=
  { token := "A", clientId := "client-A", scopes := ["mcp:tools"],
    expiresAt := 5000, resource := none, type := .access,
    refreshToken := some "R" }

def tdR : TokenData :=
  { token := "R", clientId := "client-A", scopes := ["mcp:tools"],
    expiresAt := 1000000, resource := none, type := .refresh,
    accessToken := some "A" }

def tdExpired : TokenData :=
  { token := "E", clientId := "client-A", scopes := [],
    expiresAt := 5, resource := none, type := .access }

def stTok : ProviderState :=
  { codes := [], tokens := [("A", tdA), ("R", tdR), ("E", tdExpired)],
    tokensLoaded := true, tokensFile := none, validateResource := none }

/-- Claim C2: refreshing a live refresh token owned by the presenting client
succeeds; the resulting pair keeps the same refresh token (the response
carries no `refresh_token` and the new access token is linked back to `R`,
which stays in the store), and the previously linked access token is
deleted, so a subsequent verify of it fails. -/
theorem c2_refresh_preserves_refresh_identity :
    ∀ (st : ProviderState) (client : Client) (R A newA : String)
      (td : TokenData) (scopes : Option (List String))
      (resource : Option String) (now : Nat),
      st.tokensLoaded = true →
      lget st.tokens R = some td →
      td.type = .refresh →
      td.clientId = client.client_id →
      ¬ td.expiresAt < now →
      td.accessToken = some A →
      A ≠ "" → A ≠ R → A ≠ newA → newA ≠ R →
      ∃ st',
        exchangeRefreshToken client R scopes resource now newA st =
          (.ok { access_token := newA, token_type := "bearer", expires_in := 3600,
                 refresh_token := none,
                 scope := String.intercalate " " (jsOrScopes scopes td.scopes) }, st') ∧
        lget st'.tokens newA = some (rotatedAccess client R scopes resource now newA td) ∧
        (rotatedAccess client R scopes resource now newA td).refreshToken = some R ∧
        lget st'.tokens R = some { td with accessToken := some newA } ∧
        lget st'.tokens A = none ∧
        (verifyAccessToken A now st').1 = .error (.invalidToken "Invalid token") := by
  intro st client R A newA td scopes resource now hld h hty hcl hexp hAcc hA0 hAR hAN hNR
  have heq := refresh_success_eq client R scopes resource now newA st td hld h hty
    hcl hexp hNR
  have hT1 : (if jsTruthyStr td.accessToken then
      ldel st.tokens ((td.accessToken).getD "") else st.tokens) =
      ldel st.tokens A := by
    rw [hAcc]
    simp [jsTruthyStr, hA0]
  have hnewA : lget (lset (lset (if jsTruthyStr td.accessToken then
        ldel st.tokens ((td.accessToken).getD "") else st.tokens)
        newA (rotatedAccess client R scopes resource now newA td)) R
        { td with accessToken := some newA }) newA =
      some (rotatedAccess client R scopes resource now newA td) := by
    rw [lget_lset_ne _ R newA _ hNR, lget_lset_self]
  have habs : lget (lset (lset (if jsTruthyStr td.accessToken then
        ldel st.tokens ((td.accessToken).getD "") else st.tokens)
        newA (rotatedAccess client R scopes resource now newA td)) R
        { td with accessToken := some newA }) A = none := by
    rw [lget_lset_ne _ R A _ hAR, lget_lset_ne _ newA A _ hAN, hT1, lget_ldel_self]
  exact ⟨_, heq, hnewA, rfl, lget_lset_self _ _ _, habs,
    verify_absent A now _ hld habs⟩

/-- Witness for C2: refreshing `"R"` from the concrete store rotates `"A"` to
`"B"` while keeping `"R"`. -/
theorem c2_refresh_preserves_refresh_identity_witness :
    stTok.tokensLoaded = true ∧
    lget stTok.tokens "R" = some tdR ∧
    tdR.type = .refresh ∧
    tdR.clientId = clientA.client_id ∧
    ¬ tdR.expiresAt < 10 ∧
    tdR.accessToken = some "A" ∧
    ∃ st',
      exchangeRefreshToken clientA "R" none none 10 "B" stTok =
        (.ok { access_token := "B", token_type := "bearer", expires_in := 3600,
               refresh_token := none,
               scope := String.intercalate " " (jsOrScopes none tdR.scopes) }, st') ∧
      lget st'.tokens "B" = some (rotatedAccess clientA "R" none none 10 "B" tdR) ∧
      (rotatedAccess clientA "R" none none 10 "B" tdR).refreshToken = some "R" ∧
      lget st'.tokens "R" = some { tdR with accessToken := some "B" } ∧
      lget st'.tokens "A" = none ∧
      (verifyAccessToken "A" 10 st').1 = .error (.invalidToken "Invalid token") :=
  ⟨rfl, rfl, rfl, rfl, by decide, rfl,
    c2_refresh_preserves_refresh_identity stTok clientA "R" "A" "B" tdR none none 10
      rfl rfl rfl rfl (by decide) rfl (by decide) (by decide) (by decide) (by decide)⟩

/-- Claim C4: revoking either member of a mutually linked access/refresh pair
deletes both from the token store; a subsequent verify of the access token
fails and a subsequent refresh presenting the refresh token fails. -/
theorem c4_revocation_cascades :
    ∀ (st : ProviderState) (A R : String) (ta tr : TokenData) (now : Nat),
      st.tokensLoaded = true →
      lget st.tokens A = some ta → ta.type = .access → ta.refreshToken = some R →
      lget st.tokens R = some tr → tr.type = .refresh → tr.accessToken = some A →
      A ≠ "" → R ≠ "" → A ≠ R →
      (lget (revokeToken A now st).tokens A = none ∧
       lget (revokeToken A now st).tokens R = none ∧
       (verifyAccessToken A now (revokeToken A now st)).1 =
         .error (.invalidToken "Invalid token") ∧
       (∀ (client : Client) (scopes : Option (List String))
          (resource : Option String) (now2 : Nat) (x : String),
         (exchangeRefreshToken client R scopes resource now2 x
             (revokeToken A now st)).1 =
           .error (.invalidGrant "Invalid refresh token"))) ∧
      (lget (revokeToken R now st).tokens A = none ∧
       lget (revokeToken R now st).tokens R = none ∧
       (verifyAccessToken A now (revokeToken R now st)).1 =
         .error (.invalidToken "Invalid token") ∧
       (∀ (client : Client) (scopes : Option (List String))
          (resource : Option String) (now2 : Nat) (x : String),
         (exchangeRefreshToken client R scopes resource now2 x
             (revokeToken R now st)).1 =
           .error (.invalidGrant "Invalid refresh token"))) := by
  intro st A R ta tr now hld hga hta hlinkA hgr htr hlinkR hA0 hR0 hAR
  have hRA : R ≠ A := fun hc => hAR hc.symm
  have hrevA : revokeToken A now st =
      saveTokens { st with tokens := ldel (ldel st.tokens R) A } := by
    simp [revokeToken, loadTokens_of_loaded now st hld, hga, hta, hlinkA,
      jsTruthyStr, hR0]
  have hrevR : revokeToken R now st =
      saveTokens { st with tokens := ldel (ldel st.tokens A) R } := by
    simp [revokeToken, loadTokens_of_loaded now st hld, hgr, htr, hlinkR,
      jsTruthyStr, hA0]
  have hkAA : lget (revokeToken A now st).tokens A = none := by
    rw [hrevA]
    exact lget_ldel_self _ _
  have hkAR : lget (revokeToken A now st).tokens R = none := by
    rw [hrevA]
    show lget (ldel (ldel st.tokens R) A) R = none
    rw [lget_ldel_ne _ A R hRA, lget_ldel_self]
  have hkRA : lget (revokeToken R now st).tokens A = none := by
    rw [hrevR]
    show lget (ldel (ldel st.tokens A) R) A = none
    rw [lget_ldel_ne _ R A hAR, lget_ldel_self]
  have hkRR : lget (revokeToken R now st).tokens R = none := by
    rw [hrevR]
    exact lget_ldel_self _ _
  have hldA : (revokeToken A now st).tokensLoaded = true :=
    (revoke_result_absent A now st).1
  have hldR : (revokeToken R now st).tokensLoaded = true :=
    (revoke_result_absent R now st).1
  exact ⟨⟨hkAA, hkAR, verify_absent A now _ hldA hkAA,
      fun client scopes resource now2 x =>
        refresh_absent client R scopes resource now2 x _ hldA hkAR⟩,
    ⟨hkRA, hkRR, verify_absent A now _ hldR hkRA,
      fun client scopes resource now2 x =>
        refresh_absent client R scopes resource now2 x _ hldR hkRR⟩⟩

/-- Witness for C4: revoking either `"A"` or `"R"` from the concrete store
removes both and invalidates verify/refresh. -/
theorem c4_revocation_cascades_witness :
    stTok.tokensLoaded = true ∧
    lget stTok.tokens "A" = some tdA ∧
    lget stTok.tokens "R" = some tdR ∧
    (lget (revokeToken "A" 10 stTok).tokens "A" = none ∧
     lget (revokeToken "A" 10 stTok).tokens "R" = none ∧
     (verifyAccessToken "A" 10 (revokeToken "A" 10 stTok)).1 =
       .error (.invalidToken "Invalid token") ∧
     (exchangeRefreshToken clientA "R" none none 11 "B"
         (revokeToken "A" 10 stTok)).1 =
       .error (.invalidGrant "Invalid refresh token")) ∧
    (lget (revokeToken "R" 10 stTok).tokens "A" = none ∧
     lget (revokeToken "R" 10 stTok).tokens "R" = none ∧
     (verifyAccessToken "A" 10 (revokeToken "R" 10 stTok)).1 =
       .error (.invalidToken "Invalid token") ∧
     (exchangeRefreshToken clientA "R" none none 11 "B"
         (revokeToken "R" 10 stTok)).1 =
       .error (.invalidGrant "Invalid refresh token")) := by
  have h := c4_revocation_cascades stTok "A" "R" tdA tdR 10 rfl rfl rfl rfl rfl
    rfl rfl (by decide) (by decide) (by decide)
  exact ⟨rfl, rfl, rfl,
    ⟨h.1.1, h.1.2.1, h.1.2.2.1, h.1.2.2.2 clientA none none 11 "B"⟩,
    ⟨h.2.1, h.2.2.1, h.2.2.2.1, h.2.2.2.2 clientA none none 11 "B"⟩⟩

theorem revoke_absent_noop (t : String) (now : Nat) (st : ProviderState)
    (hld : st.tokensLoaded = true) (h : lget st.tokens t = none) :
    revokeToken t now st = st := by
  simp [revokeToken, loadTokens_of_loaded now st hld, h]

/-- Claim C5: `revokeToken` is idempotent and never fails — revoking an
absent token is a silent no-op on the whole state — and the
`/oauth/revoke` route answers `200` with an empty body for every request
body and every internal outcome of the revocation. -/
theorem c5_revoke_idempotent_always_success :
    (∀ (st : ProviderState) (t : String) (now : Nat),
      st.tokensLoaded = true → lget st.tokens t = none →
      revokeToken t now st = st) ∧
    (∀ (st : ProviderState) (t : String) (now : Nat),
      revokeToken t now (revokeToken t now st) = revokeToken t now st) ∧
    (∀ (token : Option String)
       (runRevoke : String → Option String × ProviderState)
       (st : ProviderState),
      (oauthRevokeRoute token runRevoke st).1 = { status := 200, body := "" }) := by
  refine ⟨?_, ?_, ?_⟩
  · intro st t now hld h
    exact revoke_absent_noop t now st hld h
  · intro st t now
    obtain ⟨h1, h2⟩ := revoke_result_absent t now st
    exact revoke_absent_noop t now _ h1 h2
  · intro token runRevoke st
    unfold oauthRevokeRoute
    by_cases h : jsTruthyStr token
    · rw [if_pos h]
      rcases hr : runRevoke (token.getD "") with ⟨err, s⟩
      cases err <;> rfl
    · rw [if_neg h]

/-- Witness for C5: revoking a missing token is a no-op, double revocation of
`"A"` equals single revocation, and the route answers `200` with an empty
body. -/
theorem c5_revoke_idempotent_always_success_witness :
    (stTok.tokensLoaded = true ∧ lget stTok.tokens "missing" = none ∧
     revokeToken "missing" 10 stTok = stTok) ∧
    revokeToken "A" 10 (revokeToken "A" 10 stTok) = revokeToken "A" 10 stTok ∧
    (oauthRevokeRoute (some "A") (fun tk => (none, revokeToken tk 10 stTok))
        stTok).1 = { status := 200, body := "" } :=
  ⟨⟨rfl, rfl,
    c5_revoke_idempotent_always_success.1 stTok "missing" 10 rfl rfl⟩,
   c5_revoke_idempotent_always_success.2.1 stTok "A" 10,
   c5_revoke_idempotent_always_success.2.2 (some "A")
     (fun tk => (none, revokeToken tk 10 stTok)) stTok⟩

/-- Claim C7: `verifyAccessToken` fails with `InvalidToken` for an absent or
non-access token; fails with `TokenExpired` for a past-expiry token, deleting
the entry and persisting the deletion; and otherwise returns the token's
`{clientId, scopes, expiresAt, resource}` (with `expiresAt` in epoch
seconds). -/
theorem c7_verify_semantics :
    (∀ (st : ProviderState) (t : String) (now : Nat),
      st.tokensLoaded = true → lget st.tokens t = none →
      (verifyAccessToken t now st).1 = .error (.invalidToken "Invalid token")) ∧
    (∀ (st : ProviderState) (t : String) (td : TokenData) (now : Nat),
      st.tokensLoaded = true → lget st.tokens t = some td →
      td.type ≠ .access →
      (verifyAccessToken t now st).1 = .error (.invalidToken "Not an access token")) ∧
    (∀ (st : ProviderState) (t : String) (td : TokenData) (now : Nat),
      st.tokensLoaded = true → lget st.tokens t = some td →
      td.type = .access → td.expiresAt < now →
      (verifyAccessToken t now st).1 = .error (.tokenExpired "Token expired") ∧
      lget (verifyAccessToken t now st).2.tokens t = none ∧
      (verifyAccessToken t now st).2.tokensFile =
        some (verifyAccessToken t now st).2.tokens) ∧
    (∀ (st : ProviderState) (t : String) (td : TokenData) (now : Nat),
      st.tokensLoaded = true → lget st.tokens t = some td →
      td.type = .access → ¬ td.expiresAt < now →
      (verifyAccessToken t now st).1 =
        .ok { token := t, clientId := td.clientId, scopes := td.scopes,
              expiresAt := td.expiresAt / 1000, resource := td.resource }) := by
  refine ⟨?_, ?_, ?_, ?_⟩
  · intro st t now hld h
    exact verify_absent t now st hld h
  · intro st t td now hld h hty
    simp [verifyAccessToken, loadTokens_of_loaded now st hld, h, hty]
  · intro st t td now hld h hty hexp
    have heq : verifyAccessToken t now st =
        (.error (.tokenExpired "Token expired"),
         saveTokens { st with tokens := ldel st.tokens t }) := by
      simp [verifyAccessToken, loadTokens_of_loaded now st hld, h, hty, hexp]
    rw [heq]
    exact ⟨rfl, lget_ldel_self _ _, rfl⟩
  · intro st t td now hld h hty hexp
    simp [verifyAccessToken, loadTokens_of_loaded now st hld, h, hty, hexp]

/-- Witness for C7: the four verify cases at concrete tokens — missing,
refresh-typed, expired, and valid. -/
theorem c7_verify_semantics_witness :
    (lget stTok.tokens "missing" = none ∧
     (verifyAccessToken "missing" 100 stTok).1 =
       .error (.invalidToken "Invalid token")) ∧
    (lget stTok.tokens "R" = some tdR ∧ tdR.type ≠ .access ∧
     (verifyAccessToken "R" 100 stTok).1 =
       .error (.invalidToken "Not an access token")) ∧
    (lget stTok.tokens "E" = some tdExpired ∧ tdExpired.expiresAt < 100 ∧
     (verifyAccessToken "E" 100 stTok).1 = .error (.tokenExpired "Token expired") ∧
     lget (verifyAccessToken "E" 100 stTok).2.tokens "E" = none ∧
     (verifyAccessToken "E" 100 stTok).2.tokensFile =
       some (verifyAccessToken "E" 100 stTok).2.tokens) ∧
    (lget stTok.tokens "A" = some tdA ∧ ¬ tdA.expiresAt < 100 ∧
     (verifyAccessToken "A" 100 stTok).1 =
       .ok { token := "A", clientId := tdA.clientId, scopes := tdA.scopes,
             expiresAt := tdA.expiresAt / 1000, resource := tdA.resource }) := by
  have h3 := c7_verify_semantics.2.2.1 stTok "E" tdExpired 100 rfl rfl rfl (by decide)
  exact ⟨⟨rfl, c7_verify_semantics.1 stTok "missing" 100 rfl rfl⟩,
    ⟨rfl, by decide, c7_verify_semantics.2.1 stTok "R" tdR 100 rfl rfl (by decide)⟩,
    ⟨rfl, by decide, h3.1, h3.2.1, h3.2.2⟩,
    ⟨rfl, by decide, c7_verify_semantics.2.2.2 stTok "A" tdA 100 rfl rfl rfl (by decide)⟩⟩

/-- Claim C8: under the ideal-scheduler timer semantics (`fireCodeTimers`
runs every due deletion scheduled by `authorize`), an exchange attempted
more than 10 minutes after a code's issuance fails with `InvalidGrant`,
and within the window the expiry mechanism leaves the code untouched. -/
theorem c8_code_expiry :
    ∀ (st : ProviderState) (client : Client) (params : CodeParams)
      (code : String) (now0 : Nat),
      (lkeys st.codes).Nodup →
      (∀ (client2 : Client) (now2 : Nat) (a r : String),
        now0 + codeTtlMs < now2 →
        (exchangeAuthorizationCode client2 code now2 a r
            (fireCodeTimers now2 (authorize client params code now0 st))).1 =
          .error (.invalidGrant "Invalid authorization code")) ∧
      (∀ now2 : Nat, now2 < now0 + codeTtlMs →
        lget (fireCodeTimers now2 (authorize client params code now0 st)).codes code =
          some { client := client, params := params, createdAt := now0 }) := by
  intro st client params code now0 hnd
  have hset : (authorize client params code now0 st).codes =
      lset st.codes code { client := client, params := params, createdAt := now0 } := rfl
  constructor
  · intro client2 now2 a r hlt
    have hdrop : lget (fireCodeTimers now2
        (authorize client params code now0 st)).codes code = none := by
      show lget ((authorize client params code now0 st).codes.filter
        (fun e => decide (now2 < e.2.createdAt + codeTtlMs))) code = none
      rw [hset]
      exact lget_filter_drop _ code
        { client := client, params := params, createdAt := now0 }
        (fun cd => decide (now2 < cd.createdAt + codeTtlMs))
        (nodup_lkeys_lset _ _ _ hnd) (lget_lset_self _ _ _)
        (by simp only [decide_eq_false_iff_not]; omega)
    rw [exchange_code_none _ _ _ _ _ _ hdrop]
  · intro now2 hlt
    show lget ((authorize client params code now0 st).codes.filter
      (fun e => decide (now2 < e.2.createdAt + codeTtlMs))) code = _
    rw [hset]
    exact lget_filter_keep _ code _
      (fun cd : CodeData => decide (now2 < cd.createdAt + codeTtlMs))
      (lget_lset_self _ _ _)
      (by simp only [decide_eq_true_eq]; omega)

/-- Witness for C8: a code issued at time 0 is gone for an exchange at
600001 ms and still present at 1 ms. -/
theorem c8_code_expiry_witness :
    (lkeys st0.codes).Nodup ∧
    0 + codeTtlMs < 600001 ∧
    (exchangeAuthorizationCode clientA "code-2" 600001 "x" "y"
        (fireCodeTimers 600001 (authorize clientA {} "code-2" 0 st0))).1 =
      .error (.invalidGrant "Invalid authorization code") ∧
    1 < 0 + codeTtlMs ∧
    lget (fireCodeTimers 1 (authorize clientA {} "code-2" 0 st0)).codes "code-2" =
      some { client := clientA, params := {}, createdAt := 0 } := by
  have h := c8_code_expiry st0 clientA {} "code-2" 0 (by decide)
  exact ⟨by decide, by decide, h.1 clientA 600001 "x" "y" (by decide),
    by decide, h.2 1 (by decide)⟩

/-- Claim C9 (spec-modelled endpoint): registration fails with
`ValidationError` when `redirect_uris` is empty or no grant type is supplied,
and in every such case the client store and its persisted file are
unchanged. -/
theorem c9_register_validation :
    ∀ (metadata : Client) (st : ClientsStoreState),
      metadata.redirect_uris = [] ∨ metadata.grant_types = [] →
      ∃ msg, registerEndpoint metadata st = (.error (.validationError msg), st) := by
  intro metadata st h
  by_cases hr : metadata.redirect_uris = []
  · refine ⟨"redirect_uris must be a non-empty array", ?_⟩
    simp [registerEndpoint, hr]
  · have hg : metadata.grant_types = [] := h.resolve_left hr
    refine ⟨"at least one grant type is required", ?_⟩
    simp [registerEndpoint, hr, hg]

def csEmpty : ClientsStoreState :=
  { clients := [], loaded := true, storeFile := none }

def badMeta : Client :=
  { client_id := "bad", redirect_uris := [],
    grant_types := ["authorization_code"] }

/-- Witness for C9: registering metadata with empty `redirect_uris` fails
with `ValidationError` and leaves the store untouched. -/
theorem c9_register_validation_witness :
    (badMeta.redirect_uris = [] ∨ badMeta.grant_types = []) ∧
    ∃ msg, registerEndpoint badMeta csEmpty = (.error (.validationError msg), csEmpty) :=
  ⟨Or.inl rfl, c9_register_validation badMeta csEmpty (Or.inl rfl)⟩

/-- The unexpired token persisted by a prior run in the C3 scenario. -/
def priorToken : TokenData :=
  { token := "prior-access", clientId := "client-B", scopes := [],
    expiresAt := 100000000, resource := none, type := .access }

/-- A provider freshly constructed after a restart: nothing loaded yet,
the token file still holds `priorToken`. -/
def restartState : ProviderState :=
  { codes := [], tokens := [], tokensLoaded := false,
    tokensFile := some [("prior-access", priorToken)],
    validateResource := none }

/-- Claim C3, refuted at a concrete input: `exchangeAuthorizationCode`
never calls `loadTokens`, so the first post-restart operation
authorize-then-exchange persists a token map that lacks the previously
persisted unexpired token `"prior-access"`, overwriting the file and losing
it — even though `loadTokens` itself would have kept it. -/
theorem c3_restart_exchange_drops_persisted_tokens :
    (60 : Nat) < priorToken.expiresAt ∧
    lget (loadTokens 60 restartState).tokens "prior-access" = some priorToken ∧
    (exchangeAuthorizationCode clientA "code-2" 60 "new-at" "new-rt"
        (authorize clientA {} "code-2" 50 restartState)).1 =
      .ok { access_token := "new-at", token_type := "bearer", expires_in := 3600,
            refresh_token := some "new-rt", scope := "" } ∧
    lget (exchangeAuthorizationCode clientA "code-2" 60 "new-at" "new-rt"
        (authorize clientA {} "code-2" 50 restartState)).2.tokens
      "prior-access" = none ∧
    (exchangeAuthorizationCode clientA "code-2" 60 "new-at" "new-rt"
        (authorize clientA {} "code-2" 50 restartState)).2.tokensFile =
      some (exchangeAuthorizationCode clientA "code-2" 60 "new-at" "new-rt"
        (authorize clientA {} "code-2" 50 restartState)).2.tokens ∧
    lget (((exchangeAuthorizationCode clientA "code-2" 60 "new-at" "new-rt"
        (authorize clientA {} "code-2" 50 restartState)).2.tokensFile).getD [])
      "prior-access" = none :=
  ⟨by decide, rfl, rfl, rfl, rfl, rfl⟩

end OAuthModel
